import Mathlib

/-!
Verification of the offline asset installation pipeline of the Mushaf
reading application (src/services/DownloadManager.ts).

The TypeScript class DownloadManager is shallowly embedded as follows:

* the mutable DownloadProgress record, the sequence of progress-callback
  invocations, the file-system operations performed, the durable catalog
  (SQLite table installed_mushafs) and the AsyncStorage key-value store
  are collected in a RunState; every async method becomes a function in
  the state-plus-exceptions monad DM;
* the outcome of every external effect (network transfer results and
  progress ticks, directory creation, archive extraction, directory
  listings, the rows of the downloaded layout database, write failures)
  is supplied by an environment DLEnv, so one DLEnv value determines one
  installation run;
* JavaScript numbers are modelled as rationals, JS Error values as the
  structured type DMError together with the message-building function
  errMessage mirroring the thrown message strings;
* the elapsed seconds the per-page-fonts progress callback derives from
  Date.now() are supplied per tick by the environment;
* the two in-memory maps activeDownloads and progressCallbacks are only
  touched by the finally-block bookkeeping of downloadMushaf and are not
  part of the model.
-/

/-- Status enumeration of DownloadProgress (src/types/index.ts). -/
inductive DLStatus where
  | initializing
  | downloading
  | extracting
  | verifying
  | completed
  | failed
  | paused
  | cancelled
deriving DecidableEq, Repr

/-- The download_urls field of the Mushaf descriptor (src/types/index.ts). -/
structure DownloadUrls where
  fonts_zip : String
  database_sqlite : String
  common_fonts_zip : String
deriving DecidableEq, Repr

/-- Asset-set descriptor (src/types/index.ts).  Fields not read by the
DownloadManager (description, narration, features, preview images,
checksum, post-install flags) are omitted; the code union type is kept
as a plain string. -/
structure Mushaf where
  id : Nat
  name : String
  code : String
  pages_count : Nat
  lines_per_page : Nat
  size_mb : ℚ
  download_urls : DownloadUrls
deriving DecidableEq, Repr

/-- Install progress record (src/types/index.ts).  JS numbers are
rationals; eta_seconds is an integer because the code stores a
Math.round result there. -/
structure DownloadProgress where
  mushaf_id : Nat
  status : DLStatus
  progress : ℚ
  downloaded_bytes : ℚ
  total_bytes : ℚ
  speed_mbps : ℚ
  eta_seconds : ℤ
  current_step : String
  error : Option String := none
deriving DecidableEq, Repr

/-- One row of the durable catalog table installed_mushafs
(INSERT in downloadMushaf, Étape 9). -/
structure InstalledMushafRow where
  id : Nat
  name : String
  code : String
  pages_count : Nat
  lines_per_page : Nat
  local_path : String
  installed_at : String
deriving DecidableEq, Repr

/-- Structured form of the Error values thrown by DownloadManager.
Each constructor carries the data interpolated into the thrown message;
stepError stands for an error raised by an external platform call
(directory creation, extraction, database or storage write). -/
inductive DMError where
  | transferFailed (url : String)
  | missingFile (path : String)
  | assetCountMismatch (expected found : Nat)
  | lineCountViolation (page count expected : Nat)
  | stepError (msg : String)
deriving DecidableEq, Repr

/-- Message string of a DMError, mirroring the template literals of the
throw sites in DownloadManager.ts. -/
def errMessage : DMError → String
  | .transferFailed url => "Échec du téléchargement: " ++ url
  | .missingFile path => "Fichier manquant: " ++ path
  | .assetCountMismatch expected found =>
      "Nombre de polices incorrect: attendu " ++ toString expected ++
        ", trouvé " ++ toString found
  | .lineCountViolation page count expected =>
      if expected = 8 then
        "Page " ++ toString page ++ " devrait avoir 8 lignes, mais a " ++
          toString count ++ " lignes"
      else
        "ERREUR CRITIQUE: Page " ++ toString page ++
          " devrait avoir 15 lignes, mais a " ++ toString count ++ " lignes"
  | .stepError msg => msg

/-- File-system operations performed by the manager, recorded as a trace. -/
inductive FsOp where
  | mkdirOp (path : String)
  | unzipOp (src dst : String)
  | deleteOp (path : String)
deriving DecidableEq, Repr

/-- The expo-file-system documentDirectory, an external platform
location modelled as a fixed root string. -/
def documentDirectory : String := "file:///documentDirectory/"

/-- Destination root directory of one asset,
documentDirectory ++ "mushafs/" ++ id ++ "/" as built in
downloadMushaf and deleteMushaf. -/
def mushafDirPath (mushafId : Nat) : String :=
  documentDirectory ++ "mushafs/" ++ toString mushafId ++ "/"

/-- AsyncStorage key recording that an asset is installed. -/
def installedKey (mushafId : Nat) : String :=
  "mushaf_" ++ toString mushafId ++ "_installed"

/-- AsyncStorage key recording the local root path of an asset. -/
def pathKey (mushafId : Nat) : String :=
  "mushaf_" ++ toString mushafId ++ "_path"

/-- Number of page_lines rows of the layout database whose page_number
equals the given page: the value of
SELECT COUNT(*) FROM page_lines WHERE page_number = ?.
The database contents are modelled as the list of the page_number
values of its page_lines rows. -/
def countRows (rows : List Nat) (page : Nat) : Nat :=
  (rows.filter (fun r => r = page)).length

/-- One of the two query loops of validate15LinesPerPage: for each page
of the list, read the COUNT(*) row for that page and throw a
LineCountViolation when the count differs from the expected number of
lines.  (getFirstAsync of a COUNT(*) query always yields a row, so the
result-present guard of the source is always taken.) -/
def checkRange (rows : List Nat) (expected : Nat) : List Nat → Except DMError Unit
  | [] => .ok ()
  | p :: ps =>
    if countRows rows p ≠ expected then
      .error (.lineCountViolation p (countRows rows p) expected)
    else
      checkRange rows expected ps

/-- DownloadManager.validate15LinesPerPage: pages 1 and 2 must have
exactly 8 page_lines rows, pages 3 .. totalPages exactly 15.  The pages
3 .. totalPages of the second for-loop are List.range' 3
(totalPages - 2). -/
def validate15LinesPerPage (rows : List Nat) (totalPages : Nat) : Except DMError Unit := do
  checkRange rows 8 [1, 2]
  checkRange rows 15 (List.range' 3 (totalPages - 2))

/-- Equality of Except values is decidable; used to evaluate concrete
installation runs. -/
instance {ε α : Type} [DecidableEq ε] [DecidableEq α] : DecidableEq (Except ε α) := fun a b =>
  match a, b with
  | .ok x, .ok y => decidable_of_iff (x = y) (by simp)
  | .ok _, .error _ => isFalse (by simp)
  | .error _, .ok _ => isFalse (by simp)
  | .error x, .error y => decidable_of_iff (x = y) (by simp)

/-- The JavaScript String.endsWith test, modelled as a suffix test on
the character data of the strings. -/
def strEndsWith (s suffix : String) : Bool :=
  suffix.data.isSuffixOf s.data

/-- The five critical files whose existence verifyIntegrity requires. -/
def criticalFiles (mushafDir : String) (m : Mushaf) : List String :=
  [mushafDir ++ "mushaf_layout.db",
   mushafDir ++ "fonts/common/bismillah.ttf",
   mushafDir ++ "fonts/common/surah_names.ttf",
   mushafDir ++ "fonts/pages/p1.ttf",
   mushafDir ++ "fonts/pages/p" ++ toString m.pages_count ++ ".ttf"]

/-- The file-presence loop of verifyIntegrity: getInfoAsync each path in
order and throw on the first one that does not exist. -/
def checkFiles (fileExists : String → Bool) : List String → Except DMError Unit
  | [] => .ok ()
  | f :: fs =>
    if fileExists f then checkFiles fileExists fs
    else .error (.missingFile f)

/-- DownloadManager.verifyIntegrity: the critical files must exist, and
the number of ".ttf" entries of the fonts/pages/ directory listing must
equal the declared page count.  fileExists models getInfoAsync().exists
and pagesDir models readDirectoryAsync of fonts/pages/. -/
def verifyIntegrity (fileExists : String → Bool) (pagesDir : List String)
    (mushafDir : String) (m : Mushaf) : Except DMError Unit := do
  checkFiles fileExists (criticalFiles mushafDir m)
  let fontFiles := pagesDir.filter (fun file => strEndsWith file ".ttf")
  if fontFiles.length ≠ m.pages_count then
    .error (.assetCountMismatch m.pages_count fontFiles.length)
  else
    .ok ()

/-- Sample asset descriptor, the first entry of AVAILABLE_MUSHAFS
(src/data/availableMushafs.ts). -/
def sampleMushaf : Mushaf where
  id := 1
  name := "KFGQPC V2 (1421H)"
  code := "qpc_v2"
  pages_count := 604
  lines_per_page := 15
  size_mb := 185
  download_urls := {
    fonts_zip := "https://cdn.qul.tarteel.ai/fonts/qpc_v2_fonts.zip"
    database_sqlite := "https://cdn.qul.tarteel.ai/databases/qpc_v2_layout.db"
    common_fonts_zip := "https://cdn.qul.tarteel.ai/fonts/common_fonts.zip" }

/-- Progress-callback body of the per-page-fonts download (Étape 4 of
downloadMushaf): updates percentage, bytes, speed and ETA from the
reported fraction and the elapsed seconds since the step started. -/
def fontsTick (f elapsed : ℚ) (p : DownloadProgress) : DownloadProgress :=
  let bytesDownloaded : ℚ := f * p.total_bytes * (3/5)
  let speed : ℚ := if 0 < elapsed then bytesDownloaded / 1024 / 1024 / elapsed else 0
  let remainingBytes : ℚ := p.total_bytes - bytesDownloaded
  let eta : ℤ := if 0 < speed then round (remainingBytes / (speed * 1024 * 1024)) else 0
  { p with progress := 15 + f * 60, downloaded_bytes := bytesDownloaded,
           speed_mbps := speed, eta_seconds := eta }

/-- Sample in-flight progress record used by concrete witnesses. -/
def sampleProgress : DownloadProgress where
  mushaf_id := 1
  status := .downloading
  progress := 15
  downloaded_bytes := 0
  total_bytes := 1024 * 1024
  speed_mbps := 0
  eta_seconds := 0
  current_step := ""
  error := none

/-- Remove a key from the AsyncStorage model (AsyncStorage.removeItem). -/
def kvRemove (k : String) (kv : List (String × String)) : List (String × String) :=
  kv.filter (fun it => it.1 != k)

/-- Set a key in the AsyncStorage model (AsyncStorage.setItem). -/
def kvSet (k v : String) (kv : List (String × String)) : List (String × String) :=
  (k, v) :: kvRemove k kv

/-- Read a key from the AsyncStorage model (AsyncStorage.getItem),
returning none for an absent key like getItem returns null. -/
def kvGet (k : String) (kv : List (String × String)) : Option String :=
  (kv.find? (fun it => it.1 == k)).map (fun it => it.2)

/-- State of one installation run: the mutable progress record, the
sequence of snapshots handed to the progress callback, the trace of
file-system operations, the durable catalog table and the AsyncStorage
key-value store. -/
structure RunState where
  prog : DownloadProgress
  callbacks : List DownloadProgress
  ops : List FsOp
  catalog : List InstalledMushafRow
  kv : List (String × String)
deriving DecidableEq, Repr

/-- Environment of one run: the outcome of every external effect of
downloadMushaf.  A download is described by the fraction values its
progress callback receives (for the per-page fonts download, pairs of a
fraction and the elapsed seconds since the step started) followed by
the resumable result, none standing for an absent result and some s for
an HTTP status s.  Fallible platform steps are described by an Option
String holding the message of the error they throw, none meaning
success. -/
structure DLEnv where
  mkdirRootErr : Option String
  mkdirFontsErr : Option String
  dbTicks : List ℚ
  dbStatus : Option Nat
  commonTicks : List ℚ
  commonStatus : Option Nat
  fontsTicks : List (ℚ × ℚ)
  fontsStatus : Option Nat
  unzipCommonErr : Option String
  unzipFontsErr : Option String
  fileExists : String → Bool
  pagesDir : List String
  pageLines : List Nat
  insertErr : Option String
  setInstalledErr : Option String
  setPathErr : Option String
  cleanupErr : Option String
  nowIso : String

/-- The monad of DownloadManager methods: state passing over RunState
with DMError exceptions.  A thrown error leaves the state as it was at
the throw point, matching the JS semantics where the progress object
and the stores keep their contents when an exception propagates. -/
def DM (α : Type) : Type := RunState → Except DMError α × RunState

instance : Monad DM where
  pure a := fun s => (.ok a, s)
  bind x f := fun s =>
    match x s with
    | (.ok a, s1) => f a s1
    | (.error e, s1) => (.error e, s1)

/-- Throw a DMError (a JS throw). -/
def DM.throwE {α : Type} (e : DMError) : DM α := fun s => (.error e, s)

/-- The try/catch statement. -/
def DM.tryCatchE {α : Type} (x : DM α) (handle : DMError → DM α) : DM α := fun s =>
  match x s with
  | (.error e, s1) => handle e s1
  | r => r

/-- Invoke the progress callback with the current record (onProgress). -/
def DM.emit : DM Unit := fun s =>
  (.ok (), { s with callbacks := s.callbacks ++ [s.prog] })

/-- Mutate the shared progress record in place. -/
def DM.modifyProg (g : DownloadProgress → DownloadProgress) : DM Unit := fun s =>
  (.ok (), { s with prog := g s.prog })

/-- Record a file-system operation. -/
def DM.recordOp (op : FsOp) : DM Unit := fun s =>
  (.ok (), { s with ops := s.ops ++ [op] })

/-- Run a fallible platform call whose possible failure the environment
prescribes: throw the prescribed error, or perform the action. -/
def DM.fallible (err : Option String) (onOk : DM Unit) : DM Unit :=
  match err with
  | some msg => DM.throwE (.stepError msg)
  | none => onOk

/-- Lift a pure Except computation into the monad. -/
def DM.liftExcept {α : Type} (x : Except DMError α) : DM α := fun s => (x, s)

/-- AsyncStorage.setItem as a step that the environment may fail. -/
def DM.setItemStep (err : Option String) (k v : String) : DM Unit :=
  match err with
  | some msg => DM.throwE (.stepError msg)
  | none => fun s => (.ok (), { s with kv := kvSet k v s.kv })

/-- AsyncStorage.removeItem (never throws for an absent key). -/
def DM.removeItem (k : String) : DM Unit := fun s =>
  (.ok (), { s with kv := kvRemove k s.kv })

/-- The INSERT INTO installed_mushafs statement as a step that the
environment may fail. -/
def DM.insertStep (err : Option String) (row : InstalledMushafRow) : DM Unit :=
  match err with
  | some msg => DM.throwE (.stepError msg)
  | none => fun s => (.ok (), { s with catalog := s.catalog ++ [row] })

/-- The DELETE FROM installed_mushafs WHERE id = ? statement. -/
def DM.deleteRowsStep (mushafId : Nat) : DM Unit := fun s =>
  (.ok (), { s with catalog := s.catalog.filter (fun r => r.id != mushafId) })

/-- DownloadManager.downloadFile: deliver the progress fractions of the
transfer to the callback, then check the resumable result: anything but
a present result with HTTP status 200 throws. -/
def downloadFile {τ : Type} (ticks : List τ) (result : Option Nat)
    (url filePath : String) (onTick : τ → DM Unit) : DM Unit := do
  ticks.forM onTick
  if result = some 200 then pure () else DM.throwE (.transferFailed url)

/-- Progress-callback body of the layout-database download (Étape 2). -/
def dbTick (f : ℚ) (p : DownloadProgress) : DownloadProgress :=
  { p with progress := f * 10, downloaded_bytes := f * p.total_bytes * (1/10) }

/-- Progress-callback body of the common-fonts download (Étape 3). -/
def commonTick (f : ℚ) (p : DownloadProgress) : DownloadProgress :=
  { p with progress := 10 + f * 5 }

/-- The fresh progress record created at the top of downloadMushaf. -/
def initialProgress (m : Mushaf) : DownloadProgress where
  mushaf_id := m.id
  status := .initializing
  progress := 0
  downloaded_bytes := 0
  total_bytes := m.size_mb * 1024 * 1024
  speed_mbps := 0
  eta_seconds := 0
  current_step := "Initialisation..."
  error := none

/-- The try-block of DownloadManager.downloadMushaf, Étapes 1 to 10 in
source order. -/
def downloadMushafBody (env : DLEnv) (m : Mushaf) : DM Unit := do
  let mushafDir := mushafDirPath m.id
  DM.fallible env.mkdirRootErr (DM.recordOp (.mkdirOp mushafDir))
  DM.fallible env.mkdirFontsErr (DM.recordOp (.mkdirOp (mushafDir ++ "fonts/")))
  DM.modifyProg (fun p =>
    { p with status := .downloading,
             current_step := "Téléchargement de la base de données..." })
  DM.emit
  downloadFile env.dbTicks env.dbStatus m.download_urls.database_sqlite
    (mushafDir ++ "mushaf_layout.db")
    (fun f => do
      DM.modifyProg (dbTick f)
      DM.emit)
  DM.modifyProg (fun p =>
    { p with current_step := "Téléchargement des polices communes..." })
  DM.emit
  downloadFile env.commonTicks env.commonStatus m.download_urls.common_fonts_zip
    (mushafDir ++ "common_fonts.zip")
    (fun f => do
      DM.modifyProg (commonTick f)
      DM.emit)
  DM.modifyProg (fun p =>
    { p with current_step :=
               "Téléchargement des " ++ toString m.pages_count ++ " polices..." })
  DM.emit
  downloadFile env.fontsTicks env.fontsStatus m.download_urls.fonts_zip
    (mushafDir ++ "fonts.zip")
    (fun t => do
      DM.modifyProg (fontsTick t.1 t.2)
      DM.emit)
  DM.modifyProg (fun p =>
    { p with status := .extracting,
             current_step := "Extraction des polices communes...",
             progress := 75 })
  DM.emit
  DM.fallible env.unzipCommonErr
    (DM.recordOp (.unzipOp (mushafDir ++ "common_fonts.zip") (mushafDir ++ "fonts/common/")))
  DM.recordOp (.deleteOp (mushafDir ++ "common_fonts.zip"))
  DM.modifyProg (fun p =>
    { p with current_step :=
               "Extraction des " ++ toString m.pages_count ++ " polices...",
             progress := 80 })
  DM.emit
  DM.fallible env.unzipFontsErr
    (DM.recordOp (.unzipOp (mushafDir ++ "fonts.zip") (mushafDir ++ "fonts/pages/")))
  DM.recordOp (.deleteOp (mushafDir ++ "fonts.zip"))
  DM.modifyProg (fun p => { p with progress := 95 })
  DM.emit
  DM.modifyProg (fun p =>
    { p with status := .verifying,
             current_step := "Vérification de l\x27intégrité..." })
  DM.emit
  DM.liftExcept (verifyIntegrity env.fileExists env.pagesDir mushafDir m)
  DM.liftExcept (validate15LinesPerPage env.pageLines m.pages_count)
  DM.insertStep env.insertErr
    { id := m.id, name := m.name, code := m.code, pages_count := m.pages_count,
      lines_per_page := m.lines_per_page, local_path := mushafDir,
      installed_at := env.nowIso }
  DM.setItemStep env.setInstalledErr (installedKey m.id) "true"
  DM.setItemStep env.setPathErr (pathKey m.id) mushafDir
  DM.modifyProg (fun p =>
    { p with status := .completed, progress := 100,
             current_step := "Installation terminée !" })
  DM.emit

/-- DownloadManager.cleanupPartialDownload: delete the destination root
and swallow (only log) any error the deletion throws. -/
def cleanupPartialDownload (env : DLEnv) (mushafDir : String) : DM Unit :=
  DM.tryCatchE (DM.fallible env.cleanupErr (DM.recordOp (.deleteOp mushafDir)))
    (fun _ => pure ())

/-- DownloadManager.downloadMushaf: create the fresh progress record,
run the try-block, and on any exception mark the snapshot failed with
the error message, invoke the callback one last time, clean up the
partial download, and re-throw the original error. -/
def downloadMushaf (env : DLEnv) (m : Mushaf) : DM Unit := fun s =>
  DM.tryCatchE (downloadMushafBody env m)
    (fun e => do
      DM.modifyProg (fun p =>
        { p with status := .failed,
                 error := some (errMessage e),
                 current_step := "Erreur: " ++ errMessage e })
      DM.emit
      cleanupPartialDownload env (mushafDirPath m.id)
      DM.throwE e)
    { s with prog := initialProgress m }

/-- DownloadManager.deleteMushaf: delete the root directory
(idempotent), the catalog row and both AsyncStorage keys. -/
def deleteMushaf (mushafId : Nat) : DM Unit := do
  DM.recordOp (.deleteOp (mushafDirPath mushafId))
  DM.deleteRowsStep mushafId
  DM.removeItem (installedKey mushafId)
  DM.removeItem (pathKey mushafId)

/-- DownloadManager.isInstalled: the installed flag is the string
"true" (null compares unequal). -/
def isInstalled (s : RunState) (mushafId : Nat) : Bool :=
  kvGet (installedKey mushafId) s.kv == some "true"

/-- DownloadManager.getMushafPath: the stored local path, if any. -/
def getMushafPath (s : RunState) (mushafId : Nat) : Option String :=
  kvGet (pathKey mushafId) s.kv

/-- Empty run state used by concrete witnesses. -/
def sampleState : RunState where
  prog := sampleProgress
  callbacks := []
  ops := []
  catalog := []
  kv := []

/-- Progress record at the first callback of a run (Étape 2 start). -/
def progDbStart (m : Mushaf) : DownloadProgress :=
  { initialProgress m with status := .downloading,
                           current_step := "Téléchargement de la base de données..." }

/-- Progress record after the layout-database download loop. -/
def progAfterDb (env : DLEnv) (m : Mushaf) : DownloadProgress :=
  env.dbTicks.foldl (fun p f => dbTick f p) (progDbStart m)

/-- Progress record at the common-fonts step start (Étape 3). -/
def progCommonStart (env : DLEnv) (m : Mushaf) : DownloadProgress :=
  { progAfterDb env m with current_step := "Téléchargement des polices communes..." }

/-- Progress record after the common-fonts download loop. -/
def progAfterCommon (env : DLEnv) (m : Mushaf) : DownloadProgress :=
  env.commonTicks.foldl (fun p f => commonTick f p) (progCommonStart env m)

/-- Progress record at the per-page-fonts step start (Étape 4). -/
def progFontsStart (env : DLEnv) (m : Mushaf) : DownloadProgress :=
  { progAfterCommon env m with
      current_step := "Téléchargement des " ++ toString m.pages_count ++ " polices..." }

/-- Progress record after the per-page-fonts download loop. -/
def progAfterFonts (env : DLEnv) (m : Mushaf) : DownloadProgress :=
  env.fontsTicks.foldl (fun p t => fontsTick t.1 t.2 p) (progFontsStart env m)

/-- Progress record at the fixed 75 percent extraction callback. -/
def prog75 (env : DLEnv) (m : Mushaf) : DownloadProgress :=
  { progAfterFonts env m with
      status := .extracting,
      current_step := "Extraction des polices communes...",
      progress := 75 }

/-- Progress record at the fixed 80 percent extraction callback. -/
def prog80 (env : DLEnv) (m : Mushaf) : DownloadProgress :=
  { prog75 env m with
      current_step := "Extraction des " ++ toString m.pages_count ++ " polices...",
      progress := 80 }

/-- Progress record at the 95 percent callback after extraction. -/
def prog95 (env : DLEnv) (m : Mushaf) : DownloadProgress :=
  { prog80 env m with progress := 95 }

/-- Progress record at the verifying callback. -/
def progVerify (env : DLEnv) (m : Mushaf) : DownloadProgress :=
  { prog95 env m with
      status := .verifying,
      current_step := "Vérification de l\x27intégrité..." }

/-- Progress record at the final completed callback. -/
def progDone (env : DLEnv) (m : Mushaf) : DownloadProgress :=
  { progVerify env m with
      status := .completed,
      progress := 100,
      current_step := "Installation terminée !" }

/-- The full sequence of snapshots a successful run hands to the
progress callback. -/
def successCallbacks (env : DLEnv) (m : Mushaf) : List DownloadProgress :=
  [progDbStart m] ++ env.dbTicks.map (fun f => dbTick f (progDbStart m)) ++
    [progCommonStart env m] ++
    env.commonTicks.map (fun f => commonTick f (progCommonStart env m)) ++
    [progFontsStart env m] ++
    env.fontsTicks.map (fun t => fontsTick t.1 t.2 (progFontsStart env m)) ++
    [prog75 env m, prog80 env m, prog95 env m, progVerify env m, progDone env m]

/-- The file-system operations of a successful run. -/
def successOps (m : Mushaf) : List FsOp :=
  [.mkdirOp (mushafDirPath m.id),
   .mkdirOp (mushafDirPath m.id ++ "fonts/"),
   .unzipOp (mushafDirPath m.id ++ "common_fonts.zip") (mushafDirPath m.id ++ "fonts/common/"),
   .deleteOp (mushafDirPath m.id ++ "common_fonts.zip"),
   .unzipOp (mushafDirPath m.id ++ "fonts.zip") (mushafDirPath m.id ++ "fonts/pages/"),
   .deleteOp (mushafDirPath m.id ++ "fonts.zip")]

/-- The catalog row a successful run inserts (Étape 9). -/
def installedRow (env : DLEnv) (m : Mushaf) : InstalledMushafRow where
  id := m.id
  name := m.name
  code := m.code
  pages_count := m.pages_count
  lines_per_page := m.lines_per_page
  local_path := mushafDirPath m.id
  installed_at := env.nowIso

/-- The failed snapshot the catch-block of downloadMushaf builds from
the progress record as it was when the exception arrived. -/
def failedSnap (e : DMError) (p : DownloadProgress) : DownloadProgress :=
  { p with
      status := .failed,
      error := some (errMessage e),
      current_step := "Erreur: " ++ errMessage e }

/-- Environment of a run whose very first step (creation of the root
directory) fails with a disk-full error and whose cleanup succeeds. -/
def envFail : DLEnv where
  mkdirRootErr := some "disk full"
  mkdirFontsErr := none
  dbTicks := []
  dbStatus := some 200
  commonTicks := []
  commonStatus := some 200
  fontsTicks := []
  fontsStatus := some 200
  unzipCommonErr := none
  unzipFontsErr := none
  fileExists := fun _ => true
  pagesDir := []
  pageLines := []
  insertErr := none
  setInstalledErr := none
  setPathErr := none
  cleanupErr := none
  nowIso := "2026-10-12T00:00:00.000Z"

/-- Small three-page asset used by concrete run witnesses. -/
def miniMushaf : Mushaf where
  id := 7
  name := "Mini"
  code := "qpc_v2"
  pages_count := 3
  lines_per_page := 15
  size_mb := 1
  download_urls := {
    fonts_zip := "https://cdn.example/fonts.zip"
    database_sqlite := "https://cdn.example/layout.db"
    common_fonts_zip := "https://cdn.example/common.zip" }

/-- Environment of a fully successful run of miniMushaf. -/
def envOk : DLEnv where
  mkdirRootErr := none
  mkdirFontsErr := none
  dbTicks := [1/2, 1]
  dbStatus := some 200
  commonTicks := [1]
  commonStatus := some 200
  fontsTicks := [(1/2, 1), (1, 2)]
  fontsStatus := some 200
  unzipCommonErr := none
  unzipFontsErr := none
  fileExists := fun _ => true
  pagesDir := ["p1.ttf", "p2.ttf", "p3.ttf"]
  pageLines := List.replicate 8 1 ++ List.replicate 8 2 ++ List.replicate 15 3
  insertErr := none
  setInstalledErr := none
  setPathErr := none
  cleanupErr := none
  nowIso := "2026-10-12T00:00:00.000Z"

/-- Decimal digit characters of a natural number, most significant
first: the fuel-free form of Nat.toDigitsCore at base 10. -/
def natDigits (n : Nat) : List Char :=
  if h : n / 10 = 0 then [Nat.digitChar (n % 10)]
  else natDigits (n / 10) ++ [Nat.digitChar (n % 10)]
termination_by n
decreasing_by
  have hn : n ≠ 0 := fun h0 => h (by simp [h0])
  exact Nat.div_lt_self (Nat.pos_of_ne_zero hn) (by norm_num)

/-- Numeric value of a decimal digit character. -/
def digitVal (c : Char) : Nat := c.toNat - 48

/-- Numeric value of a most-significant-first decimal digit string. -/
def digitsVal (cs : List Char) : Nat := cs.foldl (fun a c => 10 * a + digitVal c) 0

/-- Run state holding two installed assets, 7 and 9, used by the C7
witness. -/
def sampleState2 : RunState where
  prog := sampleProgress
  callbacks := []
  ops := []
  catalog :=
    [{ id := 7, name := "A", code := "qpc_v2", pages_count := 604,
       lines_per_page := 15, local_path := "/a", installed_at := "t7" },
     { id := 9, name := "B", code := "qpc_v1", pages_count := 604,
       lines_per_page := 15, local_path := "/b", installed_at := "t9" }]
  kv := [("mushaf_7_installed", "true"), ("mushaf_7_path", "/a"),
         ("mushaf_9_installed", "true"), ("mushaf_9_path", "/b")]

/-- Invariant maintained at every point of the try-block before the
final completed callback: the snapshots emitted so far have
non-decreasing percentages, none exceeds the current record, the first
one (if any) was taken at percentage 0, the record is still at 0 while
nothing was emitted, and the record has not passed 95. -/
def ProgInv (s : RunState) : Prop :=
  List.Chain' (· ≤ ·) (s.callbacks.map (fun c => c.progress)) ∧
  (∀ c ∈ s.callbacks, c.progress ≤ s.prog.progress) ∧
  (s.callbacks = [] → s.prog.progress = 0) ∧
  (∀ c, s.callbacks.head? = some c → c.progress = 0) ∧
  s.prog.progress ≤ 95

/-- The property C3 asserts of a finished run: percentages delivered to
the callback are non-decreasing, the first one is below 10, and a
percentage of exactly 100 occurs only on a completed snapshot. -/
def GoodTrace (s : RunState) : Prop :=
  List.Chain' (· ≤ ·) (s.callbacks.map (fun c => c.progress)) ∧
  (∀ c, s.callbacks.head? = some c → c.progress < 10) ∧
  (∀ c ∈ s.callbacks, c.progress = 100 → c.status = DLStatus.completed)

/-- Hoare-style triple for the try-block: from a state satisfying P, a
normal return satisfies Q and a thrown error leaves a state still
satisfying ProgInv (the information the catch-block needs). -/
def DMtriple (x : DM Unit) (P Q : RunState → Prop) : Prop :=
  ∀ s, P s →
    (∀ s1, x s = (.ok (), s1) → Q s1) ∧
    (∀ e s1, x s = (.error e, s1) → ProgInv s1)

/-- State predicate between steps of the try-block: the invariant plus
a bound on the current percentage, with at least one callback made. -/
def InvB (b : ℚ) (s : RunState) : Prop :=
  ProgInv s ∧ s.callbacks ≠ [] ∧ s.prog.progress ≤ b

/-- State predicate at entry of the try-block: nothing emitted yet and
the fresh record at percentage 0. -/
def InvZero (s : RunState) : Prop :=
  ProgInv s ∧ s.callbacks = [] ∧ s.prog.progress = 0

theorem checkRange_ok_iff (rows : List Nat) (expected : Nat) (ps : List Nat) :
    checkRange rows expected ps = .ok () ↔ ∀ p ∈ ps, countRows rows p = expected := by
  induction ps with
  | nil => simp [checkRange]
  | cons p ps ih =>
    by_cases h : countRows rows p = expected
    · simp [checkRange, h, ih]
    · simp [checkRange, h]

theorem checkRange_error (rows : List Nat) (expected : Nat) (ps : List Nat)
    (e : DMError) (he : checkRange rows expected ps = .error e) :
    ∃ p ∈ ps, countRows rows p ≠ expected ∧
      e = .lineCountViolation p (countRows rows p) expected := by
  induction ps with
  | nil => simp [checkRange] at he
  | cons p ps ih =>
    by_cases h : countRows rows p = expected
    · rw [checkRange, if_neg (by simpa using h)] at he
      obtain ⟨q, hq, hne, hE⟩ := ih he
      exact ⟨q, by simp [hq], hne, hE⟩
    · rw [checkRange, if_pos (by simpa using h)] at he
      exact ⟨p, by simp, h, by simpa using he.symm⟩

theorem mem_pages_tail_iff (n p : Nat) :
    p ∈ List.range' 3 (n - 2) ↔ 3 ≤ p ∧ p ≤ n := by
  rw [List.mem_range']
  constructor
  · rintro ⟨i, hi, rfl⟩; omega
  · intro h; exact ⟨p - 3, by omega, by omega⟩

/-- C1: validate15LinesPerPage succeeds exactly when pages 1 and 2 have
8 layout-line rows and every page from 3 to the declared page count has
15; any failure is a LineCountViolation naming the offending page and
its observed row count. -/
theorem validate15LinesPerPage_spec (rows : List Nat) (n : Nat) :
    (validate15LinesPerPage rows n = .ok () ↔
      (countRows rows 1 = 8 ∧ countRows rows 2 = 8 ∧
        ∀ p, 3 ≤ p → p ≤ n → countRows rows p = 15)) ∧
    (∀ e, validate15LinesPerPage rows n = .error e →
      ((e = .lineCountViolation 1 (countRows rows 1) 8 ∧ countRows rows 1 ≠ 8) ∨
       (e = .lineCountViolation 2 (countRows rows 2) 8 ∧ countRows rows 2 ≠ 8) ∨
       (∃ p, 3 ≤ p ∧ p ≤ n ∧ countRows rows p ≠ 15 ∧
          e = .lineCountViolation p (countRows rows p) 15))) := by
  constructor
  · constructor
    · intro h
      rw [validate15LinesPerPage] at h
      cases h12 : checkRange rows 8 [1, 2] with
      | error e => rw [h12] at h; exact absurd h (by simp [Bind.bind, Except.bind])
      | ok u =>
        rw [h12] at h
        simp only [Bind.bind, Except.bind] at h
        have h1 := (checkRange_ok_iff rows 8 [1, 2]).mp (by cases u; exact h12)
        have h2 := (checkRange_ok_iff rows 15 _).mp h
        refine ⟨h1 1 (by simp), h1 2 (by simp), fun p h3 hn => ?_⟩
        exact h2 p ((mem_pages_tail_iff n p).mpr ⟨h3, hn⟩)
    · rintro ⟨h1, h2, h3⟩
      rw [validate15LinesPerPage]
      have e1 : checkRange rows 8 [1, 2] = .ok () := by
        rw [checkRange_ok_iff]; intro p hp
        rcases (by simpa using hp : p = 1 ∨ p = 2) with rfl | rfl
        · exact h1
        · exact h2
      have e2 : checkRange rows 15 (List.range' 3 (n - 2)) = .ok () := by
        rw [checkRange_ok_iff]; intro p hp
        obtain ⟨hp3, hpn⟩ := (mem_pages_tail_iff n p).mp hp
        exact h3 p hp3 hpn
      rw [e1]
      simpa [Bind.bind, Except.bind] using e2
  · intro e he
    rw [validate15LinesPerPage] at he
    cases h12 : checkRange rows 8 [1, 2] with
    | error e1 =>
      rw [h12] at he
      simp only [Bind.bind, Except.bind] at he
      obtain ⟨p, hp, hne, hE⟩ := checkRange_error rows 8 [1, 2] e1 h12
      cases he
      rcases (by simpa using hp : p = 1 ∨ p = 2) with rfl | rfl
      · exact Or.inl ⟨hE, hne⟩
      · exact Or.inr (Or.inl ⟨hE, hne⟩)
    | ok u =>
      rw [h12] at he
      simp only [Bind.bind, Except.bind] at he
      obtain ⟨p, hp, hne, hE⟩ := checkRange_error rows 15 _ e he
      obtain ⟨hp3, hpn⟩ := (mem_pages_tail_iff n p).mp hp
      exact Or.inr (Or.inr ⟨p, hp3, hpn, hne, hE⟩)

/-- Witness for C1 at a concrete database: 8 rows on pages 1 and 2 and
15 rows on page 3 pass validation for a 3-page asset. -/
theorem validate15LinesPerPage_spec_witness :
    countRows (List.replicate 8 1 ++ List.replicate 8 2 ++ List.replicate 15 3) 1 = 8 ∧
    countRows (List.replicate 8 1 ++ List.replicate 8 2 ++ List.replicate 15 3) 2 = 8 := by
  have h := (validate15LinesPerPage_spec
      (List.replicate 8 1 ++ List.replicate 8 2 ++ List.replicate 15 3) 3).1.mp (by rfl)
  exact ⟨h.1, h.2.1⟩

theorem checkFiles_ok (fileExists : String → Bool) (fs : List String)
    (h : ∀ f ∈ fs, fileExists f = true) : checkFiles fileExists fs = .ok () := by
  induction fs with
  | nil => rfl
  | cons f fs ih =>
    rw [checkFiles, if_pos (h f (by simp))]
    exact ih (fun g hg => h g (by simp [hg]))

/-- C5: when the critical files are present, the font-count check of
verifyIntegrity fails with AssetCountMismatch carrying the declared
page count and the number of ".ttf" files found exactly when the two
numbers differ, and succeeds exactly when they agree. -/
theorem verifyIntegrity_count_spec (fileExists : String → Bool)
    (pagesDir : List String) (mushafDir : String) (m : Mushaf)
    (h : ∀ f ∈ criticalFiles mushafDir m, fileExists f = true) :
    (verifyIntegrity fileExists pagesDir mushafDir m =
        .error (.assetCountMismatch m.pages_count
          (pagesDir.filter (fun file => strEndsWith file ".ttf")).length) ↔
      (pagesDir.filter (fun file => strEndsWith file ".ttf")).length ≠ m.pages_count) ∧
    (verifyIntegrity fileExists pagesDir mushafDir m = .ok () ↔
      (pagesDir.filter (fun file => strEndsWith file ".ttf")).length = m.pages_count) := by
  have hc := checkFiles_ok fileExists (criticalFiles mushafDir m) h
  by_cases hn : (pagesDir.filter (fun file => strEndsWith file ".ttf")).length = m.pages_count
  · constructor
    · simp [verifyIntegrity, hc, Bind.bind, Except.bind, hn]
    · simp [verifyIntegrity, hc, Bind.bind, Except.bind, hn]
  · constructor
    · simp [verifyIntegrity, hc, Bind.bind, Except.bind, if_pos hn, hn]
    · simp [verifyIntegrity, hc, Bind.bind, Except.bind, if_pos hn, hn]

/-- Witness for C5: one ".ttf" file found against a declared count of
604 fails with AssetCountMismatch 604 1. -/
theorem verifyIntegrity_count_spec_witness :
    verifyIntegrity (fun _ => true) ["p1.ttf"] (mushafDirPath 1) sampleMushaf =
      .error (.assetCountMismatch 604 1) := by
  have h := (verifyIntegrity_count_spec (fun _ => true) ["p1.ttf"]
      (mushafDirPath 1) sampleMushaf (fun f _ => rfl)).1.mpr (by decide)
  have e1 : (["p1.ttf"].filter (fun file => strEndsWith file ".ttf")).length = 1 := by decide
  have e2 : sampleMushaf.pages_count = 604 := rfl
  rw [e1, e2] at h
  exact h

/-- C10: directory entries that do not end in ".ttf" are invisible to
verifyIntegrity; appending any such entries to the fonts/pages/ listing
leaves its outcome unchanged. -/
theorem verifyIntegrity_ignores_non_ttf (fileExists : String → Bool)
    (pagesDir junk : List String) (mushafDir : String) (m : Mushaf)
    (h : ∀ j ∈ junk, strEndsWith j ".ttf" = false) :
    verifyIntegrity fileExists (pagesDir ++ junk) mushafDir m =
      verifyIntegrity fileExists pagesDir mushafDir m := by
  have hj : junk.filter (fun file => strEndsWith file ".ttf") = [] := by
    rw [List.filter_eq_nil_iff]
    intro a ha
    simp [h a ha]
  simp [verifyIntegrity, List.filter_append, hj]

/-- Witness for C10: a stray text file in fonts/pages/ does not change
the verification outcome. -/
theorem verifyIntegrity_ignores_non_ttf_witness :
    verifyIntegrity (fun _ => true) (["p1.ttf"] ++ ["readme.txt"])
        (mushafDirPath 1) sampleMushaf =
      verifyIntegrity (fun _ => true) ["p1.ttf"] (mushafDirPath 1) sampleMushaf :=
  verifyIntegrity_ignores_non_ttf (fun _ => true) ["p1.ttf"] ["readme.txt"]
    (mushafDirPath 1) sampleMushaf (by decide)

/-- C9: the speed and ETA computations of the per-page-fonts progress
tick are total: speed is 0 at elapsed time 0, ETA is 0 at speed 0, and
otherwise they are the stated quotients. -/
theorem fontsTick_spec (f e : ℚ) (p : DownloadProgress) :
    (e = 0 → (fontsTick f e p).speed_mbps = 0) ∧
    ((fontsTick f e p).speed_mbps = 0 → (fontsTick f e p).eta_seconds = 0) ∧
    (0 < e → (fontsTick f e p).speed_mbps = f * p.total_bytes * (3/5) / 1024 / 1024 / e) ∧
    (0 < (fontsTick f e p).speed_mbps →
      (fontsTick f e p).eta_seconds =
        round ((p.total_bytes - f * p.total_bytes * (3/5)) /
          ((fontsTick f e p).speed_mbps * 1024 * 1024))) := by
  refine ⟨?_, ?_, ?_, ?_⟩
  · intro he
    simp [fontsTick, he]
  · intro h0
    simp only [fontsTick] at h0 ⊢
    rw [h0]
    simp
  · intro he
    simp [fontsTick, he]
  · intro hs
    simp only [fontsTick] at hs ⊢
    rw [if_pos hs]

/-- Witness for C9: a tick at fraction 1 after 2 elapsed seconds on a
1 MiB asset reports a speed of 3/10 MB per second. -/
theorem fontsTick_spec_witness : (fontsTick 1 2 sampleProgress).speed_mbps = 3/10 := by
  have h := (fontsTick_spec 1 2 sampleProgress).2.2.1 (by norm_num)
  rw [h]
  show (1 : ℚ) * (1024 * 1024) * (3/5) / 1024 / 1024 / 2 = 3/10
  norm_num

theorem DM.run_bind {α β : Type} (x : DM α) (f : α → DM β) (s : RunState) :
    (x >>= f) s = match x s with
      | (.ok a, s1) => f a s1
      | (.error e, s1) => (.error e, s1) := rfl

theorem DM.pure_apply {α : Type} (a : α) (s : RunState) : (pure a : DM α) s = (.ok a, s) := rfl

theorem DM.emit_apply (s : RunState) :
    DM.emit s = (.ok (), { s with callbacks := s.callbacks ++ [s.prog] }) := rfl

theorem DM.modifyProg_apply (g : DownloadProgress → DownloadProgress) (s : RunState) :
    DM.modifyProg g s = (.ok (), { s with prog := g s.prog }) := rfl

theorem DM.recordOp_apply (op : FsOp) (s : RunState) :
    DM.recordOp op s = (.ok (), { s with ops := s.ops ++ [op] }) := rfl

theorem DM.throwE_apply {α : Type} (e : DMError) (s : RunState) :
    (DM.throwE e : DM α) s = (.error e, s) := rfl

theorem DM.liftExcept_apply {α : Type} (x : Except DMError α) (s : RunState) :
    DM.liftExcept x s = (x, s) := rfl

theorem DM.fallible_none (onOk : DM Unit) : DM.fallible none onOk = onOk := rfl

theorem DM.fallible_some (msg : String) (onOk : DM Unit) :
    DM.fallible (some msg) onOk = DM.throwE (.stepError msg) := rfl

theorem DM.setItemStep_none_apply (k v : String) (s : RunState) :
    DM.setItemStep none k v s = (.ok (), { s with kv := kvSet k v s.kv }) := rfl

theorem DM.insertStep_none_apply (row : InstalledMushafRow) (s : RunState) :
    DM.insertStep none row s = (.ok (), { s with catalog := s.catalog ++ [row] }) := rfl

theorem DM.removeItem_apply (k : String) (s : RunState) :
    DM.removeItem k s = (.ok (), { s with kv := kvRemove k s.kv }) := rfl

theorem DM.deleteRowsStep_apply (mushafId : Nat) (s : RunState) :
    DM.deleteRowsStep mushafId s =
      (.ok (), { s with catalog := s.catalog.filter (fun r => r.id != mushafId) }) := rfl

/-- Running a download progress loop: every tick mutates the record and
emits a snapshot; since each tick function overwrites the same fields
and preserves the rest, the emitted snapshots are the ticks applied to
the record at loop entry. -/
theorem tickLoop_run {τ : Type} (g : τ → DownloadProgress → DownloadProgress)
    (hg : ∀ t u p, g t (g u p) = g t p)
    (ticks : List τ) (s : RunState) :
    (ticks.forM (fun t => do DM.modifyProg (g t); DM.emit)) s =
      (.ok (), { s with
        prog := ticks.foldl (fun p t => g t p) s.prog,
        callbacks := s.callbacks ++ ticks.map (fun t => g t s.prog) }) := by
  induction ticks generalizing s with
  | nil => simp [List.forM, DM.pure_apply]
  | cons t ts ih =>
    have hstep : ((t :: ts).forM (fun t => do DM.modifyProg (g t); DM.emit)) s =
        (ts.forM (fun t => do DM.modifyProg (g t); DM.emit))
          { s with
              prog := g t s.prog,
              callbacks := s.callbacks ++ [g t s.prog] } := rfl
    rw [hstep, ih]
    have hmap : ts.map (fun u => g u (g t s.prog)) = ts.map (fun u => g u s.prog) :=
      List.map_congr_left (fun u _ => hg u t s.prog)
    simp [hmap, List.append_assoc]

theorem dbTick_collapse (t u : ℚ) (p : DownloadProgress) :
    dbTick t (dbTick u p) = dbTick t p := rfl

theorem commonTick_collapse (t u : ℚ) (p : DownloadProgress) :
    commonTick t (commonTick u p) = commonTick t p := rfl

theorem fontsTick_collapse (t u : ℚ × ℚ) (p : DownloadProgress) :
    fontsTick t.1 t.2 (fontsTick u.1 u.2 p) = fontsTick t.1 t.2 p := rfl

/-- A progress loop never throws. -/
theorem forM_ticks_ok {τ : Type} (ticks : List τ) (onTick : τ → DM Unit)
    (h : ∀ t s, ∃ s1, onTick t s = (.ok (), s1)) (s : RunState) :
    ∃ s1, (ticks.forM onTick) s = (.ok (), s1) := by
  induction ticks generalizing s with
  | nil => exact ⟨s, rfl⟩
  | cons t ts ih =>
    obtain ⟨s1, h1⟩ := h t s
    obtain ⟨s2, h2⟩ := ih s1
    refine ⟨s2, ?_⟩
    show ((onTick t) >>= fun _ => ts.forM onTick) s = (.ok (), s2)
    rw [DM.run_bind, h1]
    exact h2

/-- C8: the outcome of downloadFile is decided by an explicit check of
the transfer result alone: when the result is a present HTTP 200 it
completes without error, and for an absent result or any other status
it throws TransferFailed for the url, even though no exception occurred
during the transfer itself. -/
theorem downloadFile_spec {τ : Type} (ticks : List τ) (result : Option Nat)
    (url filePath : String) (onTick : τ → DM Unit)
    (h : ∀ t s, ∃ s1, onTick t s = (.ok (), s1)) (s : RunState) :
    (downloadFile ticks result url filePath onTick s).1 =
      (if result = some 200 then .ok () else .error (.transferFailed url)) := by
  obtain ⟨s1, h1⟩ := forM_ticks_ok ticks onTick h s
  show (((ticks.forM onTick) >>= fun _ =>
    if result = some 200 then pure () else DM.throwE (.transferFailed url)) s).1 = _
  rw [DM.run_bind, h1]
  by_cases hr : result = some 200
  · simp [hr, DM.pure_apply]
  · simp [hr, DM.throwE_apply]

/-- Witness for C8: a transfer whose resumable result has HTTP status
404 throws TransferFailed even though the transfer engine reported
progress normally and raised no exception. -/
theorem downloadFile_spec_witness :
    (downloadFile [(1 : ℚ)] (some 404) "https://cdn.example/f.zip" "/tmp/f.zip"
        (fun f => do DM.modifyProg (dbTick f); DM.emit) sampleState).1 =
      .error (.transferFailed "https://cdn.example/f.zip") := by
  have h := downloadFile_spec [(1 : ℚ)] (some 404) "https://cdn.example/f.zip" "/tmp/f.zip"
      (fun f => do DM.modifyProg (dbTick f); DM.emit)
      (fun t s => ⟨_, rfl⟩) sampleState
  rw [if_neg (by decide)] at h
  exact h

/-- Characterization of a fully successful installation run: when every
step of the environment succeeds, downloadMushaf returns ok and the
final state carries exactly the success callback sequence, the success
file-system trace, the inserted catalog row, and both AsyncStorage
flags. -/
theorem downloadMushafBody_success (env : DLEnv) (m : Mushaf) (s : RunState)
    (h1 : env.mkdirRootErr = none) (h2 : env.mkdirFontsErr = none)
    (h3 : env.dbStatus = some 200) (h4 : env.commonStatus = some 200)
    (h5 : env.fontsStatus = some 200)
    (h6 : env.unzipCommonErr = none) (h7 : env.unzipFontsErr = none)
    (h8 : verifyIntegrity env.fileExists env.pagesDir (mushafDirPath m.id) m = .ok ())
    (h9 : validate15LinesPerPage env.pageLines m.pages_count = .ok ())
    (h10 : env.insertErr = none) (h11 : env.setInstalledErr = none)
    (h12 : env.setPathErr = none) :
    downloadMushafBody env m { s with prog := initialProgress m } =
      (.ok (), { prog := progDone env m,
                 callbacks := s.callbacks ++ successCallbacks env m,
                 ops := s.ops ++ successOps m,
                 catalog := s.catalog ++ [installedRow env m],
                 kv := kvSet (pathKey m.id) (mushafDirPath m.id)
                         (kvSet (installedKey m.id) "true" s.kv) }) := by
  simp only [downloadMushafBody, downloadFile, h1, h2, h3, h4, h5, h6, h7, h10, h11, h12,
    DM.fallible_none, DM.run_bind, DM.recordOp_apply, DM.modifyProg_apply, DM.emit_apply,
    DM.liftExcept_apply, DM.setItemStep_none_apply, DM.insertStep_none_apply, DM.pure_apply,
    tickLoop_run dbTick dbTick_collapse, tickLoop_run commonTick commonTick_collapse,
    tickLoop_run (fun t : ℚ × ℚ => fontsTick t.1 t.2) fontsTick_collapse,
    h8, h9, if_pos rfl]
  simp [successCallbacks, successOps, installedRow, progDbStart, progAfterDb,
    progCommonStart, progAfterCommon, progFontsStart, progAfterFonts, prog75, prog80,
    prog95, progVerify, progDone, initialProgress, List.append_assoc]

theorem downloadMushaf_success_run (env : DLEnv) (m : Mushaf) (s : RunState)
    (h1 : env.mkdirRootErr = none) (h2 : env.mkdirFontsErr = none)
    (h3 : env.dbStatus = some 200) (h4 : env.commonStatus = some 200)
    (h5 : env.fontsStatus = some 200)
    (h6 : env.unzipCommonErr = none) (h7 : env.unzipFontsErr = none)
    (h8 : verifyIntegrity env.fileExists env.pagesDir (mushafDirPath m.id) m = .ok ())
    (h9 : validate15LinesPerPage env.pageLines m.pages_count = .ok ())
    (h10 : env.insertErr = none) (h11 : env.setInstalledErr = none)
    (h12 : env.setPathErr = none) :
    downloadMushaf env m s =
      (.ok (), { prog := progDone env m,
                 callbacks := s.callbacks ++ successCallbacks env m,
                 ops := s.ops ++ successOps m,
                 catalog := s.catalog ++ [installedRow env m],
                 kv := kvSet (pathKey m.id) (mushafDirPath m.id)
                         (kvSet (installedKey m.id) "true" s.kv) }) := by
  have hb := downloadMushafBody_success env m s h1 h2 h3 h4 h5 h6 h7 h8 h9 h10 h11 h12
  unfold downloadMushaf DM.tryCatchE
  rw [hb]

/-- C2: whenever the try-block of downloadMushaf throws, the run marks
the snapshot failed carrying the error message, invokes the callback
exactly once more with that snapshot, removes the destination root when
the removal itself succeeds, and re-raises the original error; a
failing cleanup changes nothing and never replaces the original
error. -/
theorem downloadMushaf_failure_spec (env : DLEnv) (m : Mushaf) (s : RunState)
    (e : DMError) (sb : RunState)
    (hb : downloadMushafBody env m { s with prog := initialProgress m } = (.error e, sb)) :
    downloadMushaf env m s =
      (.error e,
        { sb with
            prog := failedSnap e sb.prog,
            callbacks := sb.callbacks ++ [failedSnap e sb.prog],
            ops := if env.cleanupErr = none
                   then sb.ops ++ [.deleteOp (mushafDirPath m.id)]
                   else sb.ops }) := by
  unfold downloadMushaf DM.tryCatchE
  rw [hb]
  cases hce : env.cleanupErr with
  | none =>
    simp [hce, cleanupPartialDownload, DM.fallible_none, DM.tryCatchE, DM.run_bind,
      DM.modifyProg_apply, DM.emit_apply, DM.recordOp_apply, DM.throwE_apply, failedSnap]
  | some msg =>
    simp [hce, cleanupPartialDownload, DM.fallible_some, DM.tryCatchE, DM.run_bind,
      DM.modifyProg_apply, DM.emit_apply, DM.recordOp_apply, DM.throwE_apply, failedSnap]

/-- Witness for C2: a run failing at the first step re-raises the
original disk-full error to the caller. -/
theorem downloadMushaf_failure_spec_witness :
    (downloadMushaf envFail sampleMushaf sampleState).1 = .error (.stepError "disk full") := by
  have h := downloadMushaf_failure_spec envFail sampleMushaf sampleState
      (.stepError "disk full") { sampleState with prog := initialProgress sampleMushaf }
      (by rfl)
  rw [h]

theorem kvGet_cons (a : String × String) (t : List (String × String)) (q : String) :
    kvGet q (a :: t) = if (a.1 == q) = true then some a.2 else kvGet q t := by
  by_cases h : (a.1 == q) = true
  · rw [if_pos h]
    show (List.find? (fun it => it.1 == q) (a :: t)).map (fun it => it.2) = some a.2
    rw [@List.find?_cons_of_pos _ (fun it => it.1 == q) a t h]
    rfl
  · rw [if_neg h]
    show (List.find? (fun it => it.1 == q) (a :: t)).map (fun it => it.2) = kvGet q t
    rw [@List.find?_cons_of_neg _ (fun it => it.1 == q) a t h]
    rfl

theorem kvRemove_cons (a : String × String) (t : List (String × String)) (k : String) :
    kvRemove k (a :: t) =
      if (a.1 != k) = true then a :: kvRemove k t else kvRemove k t := by
  simp [kvRemove, List.filter_cons]

theorem kvGet_set_self (k v : String) (kv : List (String × String)) :
    kvGet k (kvSet k v kv) = some v := by
  rw [kvSet, kvGet_cons]
  simp

theorem kvGet_remove_ne (k q : String) (h : q ≠ k) (kv : List (String × String)) :
    kvGet q (kvRemove k kv) = kvGet q kv := by
  induction kv with
  | nil => rfl
  | cons a t ih =>
    rw [kvRemove_cons, kvGet_cons]
    by_cases ha : (a.1 != k) = true
    · rw [if_pos ha, kvGet_cons, ih]
    · rw [if_neg ha]
      have ha1 : a.1 = k := by simpa using ha
      have hq : (a.1 == q) = false := by
        rw [ha1]
        exact beq_eq_false_iff_ne.mpr (fun hk => h hk.symm)
      simp [hq, ih]

theorem kvGet_remove_self (k : String) (kv : List (String × String)) :
    kvGet k (kvRemove k kv) = none := by
  induction kv with
  | nil => rfl
  | cons a t ih =>
    rw [kvRemove_cons]
    by_cases ha : (a.1 != k) = true
    · rw [if_pos ha, kvGet_cons]
      have hk : (a.1 == k) = false := by
        have : ¬ a.1 = k := by simpa using ha
        exact beq_eq_false_iff_ne.mpr this
      simp [hk, ih]
    · rw [if_neg ha]
      exact ih

theorem kvGet_set_ne (k q v : String) (h : q ≠ k) (kv : List (String × String)) :
    kvGet q (kvSet k v kv) = kvGet q kv := by
  rw [kvSet, kvGet_cons]
  have hq : (k == q) = false := beq_eq_false_iff_ne.mpr (fun hk => h hk.symm)
  simp [hq, kvGet_remove_ne k q h kv]

theorem installedKey_ne_pathKey (i j : Nat) : installedKey i ≠ pathKey j := by
  intro h
  have hd := congrArg (fun s => s.data.getLast?) h
  simp only [installedKey, pathKey, String.data_append, List.getLast?_append] at hd
  have h1 : ("_installed".data : List Char).getLast? = some 'd' := by decide
  have h2 : ("_path".data : List Char).getLast? = some 'h' := by decide
  rw [h1, h2] at hd
  simp at hd

/-- C6: after a fully successful installation, the isInstalled query
answers true, getMushafPath answers the destination root, and the
catalog gained exactly one row for the asset carrying name, code, page
count, lines per page, the local root and the installation
timestamp. -/
theorem downloadMushaf_success_install (env : DLEnv) (m : Mushaf) (s : RunState)
    (h1 : env.mkdirRootErr = none) (h2 : env.mkdirFontsErr = none)
    (h3 : env.dbStatus = some 200) (h4 : env.commonStatus = some 200)
    (h5 : env.fontsStatus = some 200)
    (h6 : env.unzipCommonErr = none) (h7 : env.unzipFontsErr = none)
    (h8 : verifyIntegrity env.fileExists env.pagesDir (mushafDirPath m.id) m = .ok ())
    (h9 : validate15LinesPerPage env.pageLines m.pages_count = .ok ())
    (h10 : env.insertErr = none) (h11 : env.setInstalledErr = none)
    (h12 : env.setPathErr = none) :
    (downloadMushaf env m s).1 = .ok () ∧
    isInstalled (downloadMushaf env m s).2 m.id = true ∧
    getMushafPath (downloadMushaf env m s).2 m.id = some (mushafDirPath m.id) ∧
    (downloadMushaf env m s).2.catalog = s.catalog ++ [installedRow env m] := by
  rw [downloadMushaf_success_run env m s h1 h2 h3 h4 h5 h6 h7 h8 h9 h10 h11 h12]
  refine ⟨rfl, ?_, ?_, rfl⟩
  · show isInstalled
      { prog := progDone env m,
        callbacks := s.callbacks ++ successCallbacks env m,
        ops := s.ops ++ successOps m,
        catalog := s.catalog ++ [installedRow env m],
        kv := kvSet (pathKey m.id) (mushafDirPath m.id)
                (kvSet (installedKey m.id) "true" s.kv) } m.id = true
    simp [isInstalled, kvGet_set_ne _ _ _ (installedKey_ne_pathKey m.id m.id),
      kvGet_set_self]
  · show getMushafPath
      { prog := progDone env m,
        callbacks := s.callbacks ++ successCallbacks env m,
        ops := s.ops ++ successOps m,
        catalog := s.catalog ++ [installedRow env m],
        kv := kvSet (pathKey m.id) (mushafDirPath m.id)
                (kvSet (installedKey m.id) "true" s.kv) } m.id = some (mushafDirPath m.id)
    simp [getMushafPath, kvGet_set_self]

/-- Witness for C6: the concrete successful run flags miniMushaf as
installed. -/
theorem downloadMushaf_success_install_witness :
    isInstalled (downloadMushaf envOk miniMushaf sampleState).2 7 = true ∧
    getMushafPath (downloadMushaf envOk miniMushaf sampleState).2 7 =
      some (mushafDirPath 7) :=
  have h := downloadMushaf_success_install envOk miniMushaf sampleState
    rfl rfl rfl rfl rfl rfl rfl (by decide) (by decide) rfl rfl rfl
  ⟨h.2.1, h.2.2.1⟩

theorem dbTick_progress (f : ℚ) (p : DownloadProgress) :
    (dbTick f p).progress = f * 10 := rfl

theorem commonTick_progress (f : ℚ) (p : DownloadProgress) :
    (commonTick f p).progress = 10 + f * 5 := rfl

theorem fontsTick_progress (f e : ℚ) (p : DownloadProgress) :
    (fontsTick f e p).progress = 15 + f * 60 := rfl

theorem foldl_dbTick_progress (ticks : List ℚ) (p : DownloadProgress) :
    (ticks.foldl (fun q f => dbTick f q) p).progress =
      ticks.foldl (fun a f => f * 10) p.progress := by
  induction ticks generalizing p with
  | nil => rfl
  | cons f ts ih => exact ih (dbTick f p)

theorem foldl_commonTick_progress (ticks : List ℚ) (p : DownloadProgress) :
    (ticks.foldl (fun q f => commonTick f q) p).progress =
      ticks.foldl (fun a f => 10 + f * 5) p.progress := by
  induction ticks generalizing p with
  | nil => rfl
  | cons f ts ih => exact ih (commonTick f p)

theorem progCommonStart_progress (env : DLEnv) (m : Mushaf) :
    (progCommonStart env m).progress = env.dbTicks.foldl (fun a f => f * 10) 0 := by
  show (progAfterDb env m).progress = _
  rw [progAfterDb, foldl_dbTick_progress]
  rfl

theorem progFontsStart_progress (env : DLEnv) (m : Mushaf) :
    (progFontsStart env m).progress =
      env.commonTicks.foldl (fun a f => 10 + f * 5)
        (env.dbTicks.foldl (fun a f => f * 10) 0) := by
  show (progAfterCommon env m).progress = _
  rw [progAfterCommon, foldl_commonTick_progress, progCommonStart_progress]

theorem successCallbacks_progress (env : DLEnv) (m : Mushaf) :
    (successCallbacks env m).map (fun c => c.progress) =
      [0] ++ env.dbTicks.map (fun f => f * 10) ++
        [env.dbTicks.foldl (fun a f => f * 10) 0] ++
        env.commonTicks.map (fun f => 10 + f * 5) ++
        [env.commonTicks.foldl (fun a f => 10 + f * 5)
          (env.dbTicks.foldl (fun a f => f * 10) 0)] ++
        env.fontsTicks.map (fun t => 15 + t.1 * 60) ++
        [75, 80, 95, 95, 100] := by
  simp only [successCallbacks, List.map_append, List.map_cons, List.map_nil, List.map_map,
    Function.comp_def, dbTick_progress, commonTick_progress, fontsTick_progress]
  rw [progCommonStart_progress, progFontsStart_progress]
  rfl

theorem successCallbacks_getLast (env : DLEnv) (m : Mushaf) :
    (successCallbacks env m).getLast? = some (progDone env m) := by
  show (_ ++ [prog75 env m, prog80 env m, prog95 env m, progVerify env m,
    progDone env m]).getLast? = some (progDone env m)
  rw [List.getLast?_append]
  rfl

/-- C4: on a fully successful run the percentages handed to the
callback are exactly the fixed weighting of the steps: 0 at start, p*10
during the layout-database download, its final value repeated, 10+p*5
during the common-fonts download, its final value repeated, 15+p*60
during the per-page-fonts download, then the fixed extraction values
75, 80, 95, the repeated 95 of the verification step, and the final
completed callback at exactly 100. -/
theorem downloadMushaf_success_percentages (env : DLEnv) (m : Mushaf) (s : RunState)
    (h1 : env.mkdirRootErr = none) (h2 : env.mkdirFontsErr = none)
    (h3 : env.dbStatus = some 200) (h4 : env.commonStatus = some 200)
    (h5 : env.fontsStatus = some 200)
    (h6 : env.unzipCommonErr = none) (h7 : env.unzipFontsErr = none)
    (h8 : verifyIntegrity env.fileExists env.pagesDir (mushafDirPath m.id) m = .ok ())
    (h9 : validate15LinesPerPage env.pageLines m.pages_count = .ok ())
    (h10 : env.insertErr = none) (h11 : env.setInstalledErr = none)
    (h12 : env.setPathErr = none) :
    (downloadMushaf env m s).1 = .ok () ∧
    (downloadMushaf env m s).2.callbacks.map (fun c => c.progress) =
      s.callbacks.map (fun c => c.progress) ++
        ([0] ++ env.dbTicks.map (fun f => f * 10) ++
          [env.dbTicks.foldl (fun a f => f * 10) 0] ++
          env.commonTicks.map (fun f => 10 + f * 5) ++
          [env.commonTicks.foldl (fun a f => 10 + f * 5)
            (env.dbTicks.foldl (fun a f => f * 10) 0)] ++
          env.fontsTicks.map (fun t => 15 + t.1 * 60) ++
          [75, 80, 95, 95, 100]) ∧
    (downloadMushaf env m s).2.callbacks.getLast? = some (progDone env m) ∧
    (progDone env m).status = .completed ∧ (progDone env m).progress = 100 := by
  rw [downloadMushaf_success_run env m s h1 h2 h3 h4 h5 h6 h7 h8 h9 h10 h11 h12]
  refine ⟨rfl, ?_, ?_, rfl, rfl⟩
  · show (s.callbacks ++ successCallbacks env m).map (fun c => c.progress) = _
    rw [List.map_append, successCallbacks_progress]
  · show (s.callbacks ++ successCallbacks env m).getLast? = _
    rw [List.getLast?_append, successCallbacks_getLast]
    rfl

/-- Witness for C4: the concrete successful run of miniMushaf delivers
the percentage sequence 0, 5, 10, 10, 15, 15, 45, 75, 75, 80, 95, 95,
100. -/
theorem downloadMushaf_success_percentages_witness :
    (downloadMushaf envOk miniMushaf sampleState).2.callbacks.map (fun c => c.progress) =
      [0, 5, 10, 10, 15, 15, 45, 75, 75, 80, 95, 95, 100] := by
  have h := (downloadMushaf_success_percentages envOk miniMushaf sampleState
    rfl rfl rfl rfl rfl rfl rfl (by decide) (by decide) rfl rfl rfl).2.1
  rw [h]
  show ([] : List ℚ) ++ _ = _
  norm_num [envOk, List.map, List.foldl]

theorem toDigitsCore_eq_natDigits (fuel : Nat) :
    ∀ (n : Nat) (ds : List Char), n < fuel →
      Nat.toDigitsCore 10 fuel n ds = natDigits n ++ ds := by
  induction fuel with
  | zero => intro n ds h; omega
  | succ fuel ih =>
    intro n ds h
    simp only [Nat.toDigitsCore]
    by_cases h0 : n / 10 = 0
    · rw [if_pos h0, natDigits, dif_pos h0]
      rfl
    · rw [if_neg h0]
      have hlt : n / 10 < fuel := by omega
      rw [ih (n / 10) (Nat.digitChar (n % 10) :: ds) hlt]
      conv_rhs => rw [natDigits]
      rw [dif_neg h0, List.append_assoc]
      rfl

theorem digitVal_digitChar (d : Nat) (h : d < 10) :
    digitVal (Nat.digitChar d) = d := by
  interval_cases d <;> rfl

theorem foldl_digitsVal_natDigits (n : Nat) :
    ∀ a, (natDigits n).foldl (fun a c => 10 * a + digitVal c) a =
      a * 10 ^ (natDigits n).length + n := by
  induction n using Nat.strong_induction_on with
  | _ n ih =>
    intro a
    rw [natDigits]
    by_cases h0 : n / 10 = 0
    · rw [dif_pos h0]
      simp only [List.foldl, List.length_cons, List.length_nil]
      rw [digitVal_digitChar (n % 10) (Nat.mod_lt _ (by norm_num))]
      have : n % 10 = n := by omega
      rw [this, pow_one]
      omega
    · rw [dif_neg h0]
      have hlt : n / 10 < n := by omega
      rw [List.foldl_append, ih (n / 10) hlt a]
      simp only [List.foldl, List.length_append, List.length_cons, List.length_nil]
      rw [digitVal_digitChar (n % 10) (Nat.mod_lt _ (by norm_num))]
      have hdm : 10 * (n / 10) + n % 10 = n := by omega
      calc 10 * (a * 10 ^ (natDigits (n / 10)).length + n / 10) + n % 10
          = a * 10 ^ ((natDigits (n / 10)).length + (0 + 1)) +
              (10 * (n / 10) + n % 10) := by ring
        _ = a * 10 ^ ((natDigits (n / 10)).length + (0 + 1)) + n := by rw [hdm]

theorem digitsVal_natDigits (n : Nat) : digitsVal (natDigits n) = n := by
  have h := foldl_digitsVal_natDigits n 0
  simpa [digitsVal] using h

theorem natRepr_injective {m n : Nat} (h : Nat.repr m = Nat.repr n) : m = n := by
  have hd : Nat.toDigits 10 m = Nat.toDigits 10 n := by
    have h2 := congrArg String.data h
    simpa [Nat.repr, List.asString] using h2
  have h1 : natDigits m = natDigits n := by
    have hm := toDigitsCore_eq_natDigits (m + 1) m [] (by omega)
    have hn := toDigitsCore_eq_natDigits (n + 1) n [] (by omega)
    simp only [Nat.toDigits] at hd
    rw [hm, hn] at hd
    simpa using hd
  have h3 := congrArg digitsVal h1
  simpa [digitsVal_natDigits] using h3

theorem installedKey_injective {i j : Nat} (h : installedKey i = installedKey j) :
    i = j := by
  have hd := congrArg String.data h
  simp only [installedKey, String.data_append] at hd
  have h1 := List.append_cancel_right hd
  have h2 := List.append_cancel_left h1
  exact natRepr_injective (String.ext h2)

theorem pathKey_injective {i j : Nat} (h : pathKey i = pathKey j) : i = j := by
  have hd := congrArg String.data h
  simp only [pathKey, String.data_append] at hd
  have h1 := List.append_cancel_right hd
  have h2 := List.append_cancel_left h1
  exact natRepr_injective (String.ext h2)

/-- C7: deleteMushaf never throws, removes the root directory,
deletes exactly the catalog rows of the given identifier and clears
exactly its two flag-store keys; every other identifier keeps its
installed flag, its stored path and its catalog rows. -/
theorem deleteMushaf_spec (mushafId : Nat) (s : RunState) :
    (deleteMushaf mushafId s).1 = .ok () ∧
    (deleteMushaf mushafId s).2.ops = s.ops ++ [.deleteOp (mushafDirPath mushafId)] ∧
    (deleteMushaf mushafId s).2.catalog = s.catalog.filter (fun r => r.id != mushafId) ∧
    isInstalled (deleteMushaf mushafId s).2 mushafId = false ∧
    getMushafPath (deleteMushaf mushafId s).2 mushafId = none ∧
    (∀ j, j ≠ mushafId →
      isInstalled (deleteMushaf mushafId s).2 j = isInstalled s j ∧
      getMushafPath (deleteMushaf mushafId s).2 j = getMushafPath s j ∧
      (deleteMushaf mushafId s).2.catalog.filter (fun r => r.id == j) =
        s.catalog.filter (fun r => r.id == j)) := by
  have hrun : deleteMushaf mushafId s =
      (.ok (), { s with
          ops := s.ops ++ [.deleteOp (mushafDirPath mushafId)],
          catalog := s.catalog.filter (fun r => r.id != mushafId),
          kv := kvRemove (pathKey mushafId)
                  (kvRemove (installedKey mushafId) s.kv) }) := rfl
  rw [hrun]
  refine ⟨rfl, rfl, rfl, ?_, ?_, ?_⟩
  · show (kvGet (installedKey mushafId)
      (kvRemove (pathKey mushafId) (kvRemove (installedKey mushafId) s.kv)) ==
        some "true") = false
    rw [kvGet_remove_ne _ _ (installedKey_ne_pathKey mushafId mushafId),
      kvGet_remove_self]
    rfl
  · show kvGet (pathKey mushafId)
      (kvRemove (pathKey mushafId) (kvRemove (installedKey mushafId) s.kv)) = none
    exact kvGet_remove_self _ _
  · intro j hj
    refine ⟨?_, ?_, ?_⟩
    · show (kvGet (installedKey j)
        (kvRemove (pathKey mushafId) (kvRemove (installedKey mushafId) s.kv)) ==
          some "true") = isInstalled s j
      rw [kvGet_remove_ne _ _ (installedKey_ne_pathKey j mushafId),
        kvGet_remove_ne _ _ (fun he => hj (installedKey_injective he))]
      rfl
    · show kvGet (pathKey j)
        (kvRemove (pathKey mushafId) (kvRemove (installedKey mushafId) s.kv)) =
          getMushafPath s j
      rw [kvGet_remove_ne _ _ (fun he => hj (pathKey_injective he)),
        kvGet_remove_ne _ _ (Ne.symm (installedKey_ne_pathKey mushafId j))]
      rfl
    · rw [List.filter_filter]
      refine List.filter_congr ?_
      intro r _
      by_cases hr : r.id = j
      · simp [hr, hj]
      · simp [hr]

/-- Witness for C7: uninstalling asset 7 clears its flag and leaves the
flag of asset 9 untouched. -/
theorem deleteMushaf_spec_witness :
    isInstalled (deleteMushaf 7 sampleState2).2 7 = false ∧
    isInstalled (deleteMushaf 7 sampleState2).2 9 = isInstalled sampleState2 9 := by
  have h := deleteMushaf_spec 7 sampleState2
  exact ⟨h.2.2.2.1, (h.2.2.2.2.2 9 (by decide)).1⟩

theorem chain_append_snap (cbs : List DownloadProgress) (q : DownloadProgress)
    (hch : List.Chain' (· ≤ ·) (cbs.map (fun c => c.progress)))
    (hle : ∀ c ∈ cbs, c.progress ≤ q.progress) :
    List.Chain' (· ≤ ·) ((cbs ++ [q]).map (fun c => c.progress)) := by
  rw [List.map_append]
  refine List.Chain'.append hch (List.chain'_singleton _) ?_
  intro x hx y hy
  have hy2 : q.progress = y := by simpa using hy
  subst hy2
  have hx2 : x ∈ cbs.map (fun c => c.progress) := List.mem_of_getLast?_eq_some hx
  obtain ⟨c, hc, rfl⟩ := List.mem_map.mp hx2
  exact hle c hc

theorem progInv_emit (s : RunState) (h : ProgInv s) :
    ProgInv { s with callbacks := s.callbacks ++ [s.prog] } := by
  obtain ⟨hch, hle, hemp, hhd, hpb⟩ := h
  refine ⟨chain_append_snap _ _ hch hle, ?_, ?_, ?_, hpb⟩
  · intro c hc
    rcases List.mem_append.mp hc with h1 | h2
    · exact hle c h1
    · rw [List.mem_singleton.mp h2]
  · intro habs
    simp at habs
  · intro c hc
    cases hcb : s.callbacks with
    | nil =>
      rw [hcb] at hc
      have : s.prog = c := by simpa using hc
      rw [← this]
      exact hemp hcb
    | cons a t =>
      rw [hcb] at hc
      have : a = c := by simpa using hc
      rw [← this]
      exact hhd a (by rw [hcb]; rfl)

theorem progInv_modifyProg (s : RunState) (g : DownloadProgress → DownloadProgress)
    (h : ProgInv s)
    (hup : s.prog.progress ≤ (g s.prog).progress)
    (hb : (g s.prog).progress ≤ 95)
    (hz : s.callbacks = [] → (g s.prog).progress = 0) :
    ProgInv { s with prog := g s.prog } := by
  obtain ⟨hch, hle, hemp, hhd, hpb⟩ := h
  exact ⟨hch, fun c hc => le_trans (hle c hc) hup, hz, hhd, hb⟩

theorem goodTrace_append_final (s : RunState) (q : DownloadProgress)
    (h : ProgInv s)
    (hup : s.prog.progress ≤ q.progress)
    (hq : q.progress = 100 → q.status = DLStatus.completed)
    (hq0 : s.callbacks = [] → q.progress < 10) :
    GoodTrace { s with prog := q, callbacks := s.callbacks ++ [q] } := by
  obtain ⟨hch, hle, hemp, hhd, hpb⟩ := h
  refine ⟨chain_append_snap _ _ hch (fun c hc => le_trans (hle c hc) hup), ?_, ?_⟩
  · intro c hc
    cases hcb : s.callbacks with
    | nil =>
      rw [hcb] at hc
      have : q = c := by simpa using hc
      rw [← this]
      exact hq0 hcb
    | cons a t =>
      rw [hcb] at hc
      have : a = c := by simpa using hc
      rw [← this]
      have h0 : a.progress = 0 := hhd a (by rw [hcb]; rfl)
      rw [h0]
      norm_num
  · intro c hc h100
    rcases List.mem_append.mp hc with h1 | h2
    · exfalso
      have hle1 : c.progress ≤ 95 := le_trans (hle c h1) hpb
      rw [h100] at hle1
      norm_num at hle1
    · have hcq : c = q := List.mem_singleton.mp h2
      subst hcq
      exact hq h100

theorem DMtriple.bind {x : DM Unit} {f : Unit → DM Unit} {P Q R : RunState → Prop}
    (hx : DMtriple x P Q) (hf : DMtriple (f ()) Q R) : DMtriple (x >>= f) P R := by
  intro s hP
  constructor
  · intro s1 h1
    cases hxs : x s with
    | mk r sm =>
      cases r with
      | ok a =>
        cases a
        rw [DM.run_bind, hxs] at h1
        exact (hf sm ((hx s hP).1 sm hxs)).1 s1 h1
      | error e =>
        rw [DM.run_bind, hxs] at h1
        simp at h1
  · intro e s1 h1
    cases hxs : x s with
    | mk r sm =>
      cases r with
      | ok a =>
        cases a
        rw [DM.run_bind, hxs] at h1
        exact (hf sm ((hx s hP).1 sm hxs)).2 e s1 h1
      | error e2 =>
        rw [DM.run_bind, hxs] at h1
        have h2 : sm = s1 := congrArg Prod.snd h1
        rw [← h2]
        exact (hx s hP).2 e2 sm hxs

/-- Triple for a step that always succeeds and transforms the state. -/
theorem DMtriple_total {P Q : RunState → Prop} (g : RunState → RunState)
    (x : DM Unit) (hx : ∀ s, x s = (.ok (), g s)) (h : ∀ s, P s → Q (g s)) :
    DMtriple x P Q := by
  intro s hP
  constructor
  · intro s1 h1
    rw [hx s] at h1
    have h2 : g s = s1 := congrArg Prod.snd h1
    rw [← h2]
    exact h s hP
  · intro e s1 h1
    rw [hx s] at h1
    exact absurd (congrArg Prod.fst h1) (by simp)

/-- Triple for a step the environment may fail: on the error branch the
state is unchanged. -/
theorem DMtriple_fallible (err : Option String) (onOk : DM Unit)
    (P Q : RunState → Prop)
    (hPI : ∀ s, P s → ProgInv s) (hok : DMtriple onOk P Q) :
    DMtriple (DM.fallible err onOk) P Q := by
  cases err with
  | none => exact hok
  | some msg =>
    intro s hP
    constructor
    · intro s1 h1
      exact absurd (congrArg Prod.fst h1) (by simp [DM.fallible, DM.throwE])
    · intro e s1 h1
      have h2 : s = s1 := congrArg Prod.snd h1
      rw [← h2]
      exact hPI s hP

theorem DMtriple_liftExcept (x : Except DMError Unit) (P : RunState → Prop)
    (hPI : ∀ s, P s → ProgInv s) : DMtriple (DM.liftExcept x) P P := by
  intro s hP
  constructor
  · intro s1 h1
    have h2 : s = s1 := congrArg Prod.snd h1
    rw [← h2]
    exact hP
  · intro e s1 h1
    have h2 : s = s1 := congrArg Prod.snd h1
    rw [← h2]
    exact hPI s hP

theorem DMtriple_setItemStep (err : Option String) (k v : String)
    (P : RunState → Prop)
    (hPI : ∀ s, P s → ProgInv s)
    (hP : ∀ s, P s → P { s with kv := kvSet k v s.kv }) :
    DMtriple (DM.setItemStep err k v) P P := by
  cases err with
  | none => exact DMtriple_total _ _ (fun s => rfl) hP
  | some msg =>
    intro s hs
    constructor
    · intro s1 h1
      exact absurd (congrArg Prod.fst h1) (by simp [DM.setItemStep, DM.throwE])
    · intro e s1 h1
      have h2 : s = s1 := congrArg Prod.snd h1
      rw [← h2]
      exact hPI s hs

theorem DMtriple_insertStep (err : Option String)
    (row : InstalledMushafRow) (P : RunState → Prop)
    (hPI : ∀ s, P s → ProgInv s)
    (hP : ∀ s, P s → P { s with catalog := s.catalog ++ [row] }) :
    DMtriple (DM.insertStep err row) P P := by
  cases err with
  | none => exact DMtriple_total _ _ (fun s => rfl) hP
  | some msg =>
    intro s hs
    constructor
    · intro s1 h1
      exact absurd (congrArg Prod.fst h1) (by simp [DM.insertStep, DM.throwE])
    · intro e s1 h1
      have h2 : s = s1 := congrArg Prod.snd h1
      rw [← h2]
      exact hPI s hs

theorem DMtriple_downloadFile {τ : Type} (ticks : List τ)
    (result : Option Nat) (url filePath : String) (onTick : τ → DM Unit)
    (P Q : RunState → Prop)
    (hloop : DMtriple (ticks.forM onTick) P Q) (hQI : ∀ s, Q s → ProgInv s) :
    DMtriple (downloadFile ticks result url filePath onTick) P Q := by
  have hrest : DMtriple
      (if result = some 200 then pure () else DM.throwE (.transferFailed url)) Q Q := by
    by_cases hr : result = some 200
    · rw [if_pos hr]
      exact DMtriple_total id _ (fun s => rfl) (fun s h => h)
    · rw [if_neg hr]
      intro s hs
      constructor
      · intro s1 h1
        exact absurd (congrArg Prod.fst h1) (by simp [DM.throwE])
      · intro e s1 h1
        have h2 : s = s1 := congrArg Prod.snd h1
        rw [← h2]
        exact hQI s hs
  intro s hP
  exact DMtriple.bind hloop hrest s hP

theorem DMtriple_recordOp (op : FsOp) (P : RunState → Prop)
    (h : ∀ s, P s → P { s with ops := s.ops ++ [op] }) :
    DMtriple (DM.recordOp op) P P :=
  DMtriple_total (fun s => { s with ops := s.ops ++ [op] }) _ (fun s => rfl) h

theorem DMtriple_modifyProg (g : DownloadProgress → DownloadProgress)
    (P Q : RunState → Prop)
    (h : ∀ s, P s → Q { s with prog := g s.prog }) :
    DMtriple (DM.modifyProg g) P Q :=
  DMtriple_total (fun s => { s with prog := g s.prog }) _ (fun s => rfl) h

theorem DMtriple_emit (P Q : RunState → Prop)
    (h : ∀ s, P s → Q { s with callbacks := s.callbacks ++ [s.prog] }) :
    DMtriple DM.emit P Q :=
  DMtriple_total (fun s => { s with callbacks := s.callbacks ++ [s.prog] }) _
    (fun s => rfl) h

theorem DMtriple_emit_invB (b : ℚ) : DMtriple DM.emit (InvB b) (InvB b) :=
  DMtriple_emit (InvB b) (InvB b) (fun s h => ⟨progInv_emit s h.1, by simp, h.2.2⟩)

theorem DMtriple_modifyKeep (g : DownloadProgress → DownloadProgress)
    (hg : ∀ p, (g p).progress = p.progress) (b : ℚ) :
    DMtriple (DM.modifyProg g) (InvB b) (InvB b) :=
  DMtriple_modifyProg g (InvB b) (InvB b) (fun s h =>
    ⟨progInv_modifyProg s g h.1 (le_of_eq (hg s.prog).symm)
        (by rw [hg]; exact h.1.2.2.2.2) (fun hh => absurd hh h.2.1),
     h.2.1, by show (g s.prog).progress ≤ b; rw [hg]; exact h.2.2⟩)

theorem DMtriple_modifySet (g : DownloadProgress → DownloadProgress) (v : ℚ)
    (hg : ∀ p, (g p).progress = v) (b b' : ℚ)
    (hbv : b ≤ v) (hv : v ≤ b') (hv95 : v ≤ 95) :
    DMtriple (DM.modifyProg g) (InvB b) (InvB b') :=
  DMtriple_modifyProg g (InvB b) (InvB b') (fun s h =>
    ⟨progInv_modifyProg s g h.1 (by rw [hg]; exact le_trans h.2.2 hbv)
        (by rw [hg]; exact hv95) (fun hh => absurd hh h.2.1),
     h.2.1, by show (g s.prog).progress ≤ b'; rw [hg]; exact hv⟩)

theorem DMtriple_tickLoop {τ : Type} (g : τ → DownloadProgress → DownloadProgress)
    (ψ : τ → ℚ) (B : ℚ) (hB : B ≤ 95)
    (hgp : ∀ t p, (g t p).progress = ψ t) :
    ∀ (ticks : List τ) (LB : ℚ), LB ≤ B →
      List.Pairwise (fun a b => ψ a ≤ ψ b) ticks →
      (∀ t ∈ ticks, LB ≤ ψ t ∧ ψ t ≤ B) →
      DMtriple (ticks.forM (fun t => do DM.modifyProg (g t); DM.emit))
        (InvB LB) (InvB B) := by
  intro ticks
  induction ticks with
  | nil =>
    intro LB hLB hpair hpsi
    refine DMtriple_total id _ (fun s => rfl) ?_
    intro s hs
    exact ⟨hs.1, hs.2.1, le_trans hs.2.2 hLB⟩
  | cons t ts ih =>
    intro LB hLB hpair hpsi
    have hpsit := hpsi t (by simp)
    have hpair2 := List.pairwise_cons.mp hpair
    intro s hs
    obtain ⟨hInv, hne, hle⟩ := hs
    have hstep : ((t :: ts).forM (fun t => do DM.modifyProg (g t); DM.emit)) s =
        (ts.forM (fun t => do DM.modifyProg (g t); DM.emit))
          { s with
              prog := g t s.prog,
              callbacks := s.callbacks ++ [g t s.prog] } := rfl
    have hInv2 : ProgInv { s with prog := g t s.prog } :=
      progInv_modifyProg s (g t) hInv
        (by rw [hgp]; exact le_trans hle hpsit.1)
        (by rw [hgp]; exact le_trans hpsit.2 hB)
        (fun hh => absurd hh hne)
    have hInv3 : ProgInv { s with
        prog := g t s.prog,
        callbacks := s.callbacks ++ [g t s.prog] } :=
      progInv_emit { s with prog := g t s.prog } hInv2
    have hs2 : InvB (ψ t) { s with
        prog := g t s.prog,
        callbacks := s.callbacks ++ [g t s.prog] } :=
      ⟨hInv3, by simp, le_of_eq (hgp t s.prog)⟩
    have htail := ih (ψ t) hpsit.2 hpair2.2
      (fun u hu => ⟨hpair2.1 u hu, (hpsi u (by simp [hu])).2⟩) _ hs2
    constructor
    · intro s1 h1
      rw [hstep] at h1
      exact htail.1 s1 h1
    · intro e s1 h1
      rw [hstep] at h1
      exact htail.2 e s1 h1

theorem DMtriple_finalStep :
    DMtriple (DM.modifyProg (fun p =>
        { p with
            status := DLStatus.completed,
            progress := 100,
            current_step := "Installation terminée !" }) >>=
        fun _ => DM.emit)
      (InvB 95) GoodTrace := by
  intro s hs
  obtain ⟨hInv, hne, hle⟩ := hs
  constructor
  · intro s1 h1
    have h2 : ({ s with
        prog := { s.prog with
          status := DLStatus.completed,
          progress := 100,
          current_step := "Installation terminée !" },
        callbacks := s.callbacks ++
          [{ s.prog with
            status := DLStatus.completed,
            progress := 100,
            current_step := "Installation terminée !" }] } : RunState) = s1 :=
      congrArg Prod.snd h1
    rw [← h2]
    exact goodTrace_append_final s _ hInv (le_trans hle (by norm_num))
      (fun _ => rfl) (fun hemp => absurd hemp hne)
  · intro e s1 h1
    have h3 : (Except.ok () : Except DMError Unit) = .error e := congrArg Prod.fst h1
    simp at h3

set_option maxHeartbeats 2000000 in
theorem DMtriple_modifyKeepZero (g : DownloadProgress → DownloadProgress)
    (hg : ∀ p, (g p).progress = p.progress) :
    DMtriple (DM.modifyProg g) InvZero InvZero :=
  DMtriple_modifyProg g InvZero InvZero (fun s h =>
    ⟨progInv_modifyProg s g h.1 (le_of_eq (hg s.prog).symm)
        (by rw [hg]; exact h.1.2.2.2.2) (fun _ => by rw [hg]; exact h.2.2),
     h.2.1, by show (g s.prog).progress = 0; rw [hg]; exact h.2.2⟩)

theorem downloadMushafBody_goodTrace (env : DLEnv) (m : Mushaf)
    (hdbP : List.Pairwise (· ≤ ·) env.dbTicks)
    (hdbB : ∀ f ∈ env.dbTicks, 0 ≤ f ∧ f ≤ 1)
    (hcmP : List.Pairwise (· ≤ ·) env.commonTicks)
    (hcmB : ∀ f ∈ env.commonTicks, 0 ≤ f ∧ f ≤ 1)
    (hftP : List.Pairwise (fun a b : ℚ × ℚ => a.1 ≤ b.1) env.fontsTicks)
    (hftB : ∀ t ∈ env.fontsTicks, 0 ≤ t.1 ∧ t.1 ≤ 1) :
    DMtriple (downloadMushafBody env m) InvZero GoodTrace := by
  have hP0I : ∀ s, InvZero s → ProgInv s := fun s h => h.1
  simp only [downloadMushafBody]
  refine DMtriple.bind (DMtriple_fallible _ _ InvZero InvZero hP0I
    (DMtriple_recordOp _ InvZero (fun s h => h))) ?_
  refine DMtriple.bind (DMtriple_fallible _ _ InvZero InvZero hP0I
    (DMtriple_recordOp _ InvZero (fun s h => h))) ?_
  refine DMtriple.bind (DMtriple_modifyKeepZero _ (by exact fun p => rfl)) ?_
  refine DMtriple.bind (DMtriple_emit InvZero (InvB 0) (fun s h =>
    ⟨progInv_emit s h.1, by simp, le_of_eq h.2.2⟩)) ?_
  refine DMtriple.bind (DMtriple_downloadFile _ _ _ _ _ (InvB 0) (InvB 10)
    (DMtriple_tickLoop dbTick (fun f => f * 10) 10 (by norm_num) (fun t p => rfl)
      env.dbTicks 0 (by norm_num)
      (hdbP.imp (fun hab => by dsimp only; linarith))
      (fun f hf => ⟨by dsimp only; nlinarith [(hdbB f hf).1], by dsimp only; linarith [(hdbB f hf).2]⟩))
    (fun s h => h.1)) ?_
  refine DMtriple.bind (DMtriple_modifyKeep _ (by exact fun p => rfl) 10) ?_
  refine DMtriple.bind (DMtriple_emit_invB 10) ?_
  refine DMtriple.bind (DMtriple_downloadFile _ _ _ _ _ (InvB 10) (InvB 15)
    (DMtriple_tickLoop commonTick (fun f => 10 + f * 5) 15 (by norm_num)
      (fun t p => rfl) env.commonTicks 10 (by norm_num)
      (hcmP.imp (fun hab => by dsimp only; linarith))
      (fun f hf => ⟨by dsimp only; linarith [(hcmB f hf).1], by dsimp only; linarith [(hcmB f hf).2]⟩))
    (fun s h => h.1)) ?_
  refine DMtriple.bind (DMtriple_modifyKeep _ (by exact fun p => rfl) 15) ?_
  refine DMtriple.bind (DMtriple_emit_invB 15) ?_
  refine DMtriple.bind (DMtriple_downloadFile _ _ _ _ _ (InvB 15) (InvB 75)
    (DMtriple_tickLoop (fun t : ℚ × ℚ => fontsTick t.1 t.2) (fun t => 15 + t.1 * 60) 75
      (by norm_num) (fun t p => rfl)
      env.fontsTicks 15 (by norm_num)
      (hftP.imp (fun hab => by dsimp only; linarith))
      (fun t ht => ⟨by dsimp only; linarith [(hftB t ht).1], by dsimp only; linarith [(hftB t ht).2]⟩))
    (fun s h => h.1)) ?_
  refine DMtriple.bind (DMtriple_modifySet _ 75 (by exact fun p => rfl) 75 75
    (le_refl _) (le_refl _) (by norm_num)) ?_
  refine DMtriple.bind (DMtriple_emit_invB 75) ?_
  refine DMtriple.bind (DMtriple_fallible _ _ (InvB 75) (InvB 75) (fun s h => h.1)
    (DMtriple_recordOp _ (InvB 75) (fun s h => h))) ?_
  refine DMtriple.bind (DMtriple_recordOp _ (InvB 75) (fun s h => h)) ?_
  refine DMtriple.bind (DMtriple_modifySet _ 80 (by exact fun p => rfl) 75 80
    (by norm_num) (le_refl _) (by norm_num)) ?_
  refine DMtriple.bind (DMtriple_emit_invB 80) ?_
  refine DMtriple.bind (DMtriple_fallible _ _ (InvB 80) (InvB 80) (fun s h => h.1)
    (DMtriple_recordOp _ (InvB 80) (fun s h => h))) ?_
  refine DMtriple.bind (DMtriple_recordOp _ (InvB 80) (fun s h => h)) ?_
  refine DMtriple.bind (DMtriple_modifySet _ 95 (by exact fun p => rfl) 80 95
    (by norm_num) (le_refl _) (by norm_num)) ?_
  refine DMtriple.bind (DMtriple_emit_invB 95) ?_
  refine DMtriple.bind (DMtriple_modifyKeep _ (by exact fun p => rfl) 95) ?_
  refine DMtriple.bind (DMtriple_emit_invB 95) ?_
  refine DMtriple.bind (DMtriple_liftExcept _ (InvB 95) (fun s h => h.1)) ?_
  refine DMtriple.bind (DMtriple_liftExcept _ (InvB 95) (fun s h => h.1)) ?_
  refine DMtriple.bind (DMtriple_insertStep _ _ (InvB 95) (fun s h => h.1)
    (fun s h => h)) ?_
  refine DMtriple.bind (DMtriple_setItemStep _ _ _ (InvB 95) (fun s h => h.1)
    (fun s h => h)) ?_
  refine DMtriple.bind (DMtriple_setItemStep _ _ _ (InvB 95) (fun s h => h.1)
    (fun s h => h)) ?_
  exact DMtriple_finalStep

/-- C3: for any run of downloadMushaf (successful or failing at any
step) in which each transfer reports non-decreasing fractions within
[0,1], the percentages delivered to the progress callback are
monotonically non-decreasing, the first reported percentage is below
10, and a percentage of exactly 100 is delivered only on the snapshot
whose status is completed. -/
theorem downloadMushaf_monotone (env : DLEnv) (m : Mushaf) (s : RunState)
    (hcb : s.callbacks = [])
    (hdb : List.Chain' (· ≤ ·) env.dbTicks)
    (hdbB : ∀ f ∈ env.dbTicks, 0 ≤ f ∧ f ≤ 1)
    (hcm : List.Chain' (· ≤ ·) env.commonTicks)
    (hcmB : ∀ f ∈ env.commonTicks, 0 ≤ f ∧ f ≤ 1)
    (hft : List.Chain' (· ≤ ·) (env.fontsTicks.map Prod.fst))
    (hftB : ∀ t ∈ env.fontsTicks, 0 ≤ t.1 ∧ t.1 ≤ 1) :
    GoodTrace (downloadMushaf env m s).2 := by
  have hdbP : List.Pairwise (· ≤ ·) env.dbTicks := List.chain'_iff_pairwise.mp hdb
  have hcmP : List.Pairwise (· ≤ ·) env.commonTicks := List.chain'_iff_pairwise.mp hcm
  have hftP : List.Pairwise (fun a b : ℚ × ℚ => a.1 ≤ b.1) env.fontsTicks := by
    have h2 := List.chain'_iff_pairwise.mp hft
    rwa [List.pairwise_map] at h2
  have hbody := downloadMushafBody_goodTrace env m hdbP hdbB hcmP hcmB hftP hftB
  have hP0 : InvZero { s with prog := initialProgress m } := by
    refine ⟨⟨by simp [hcb], by simp [hcb], fun _ => rfl, by simp [hcb], ?_⟩, hcb, rfl⟩
    show (0 : ℚ) ≤ 95
    norm_num
  unfold downloadMushaf
  cases hb : downloadMushafBody env m { s with prog := initialProgress m } with
  | mk r sb =>
    cases r with
    | ok a =>
      cases a
      have hgood := (hbody _ hP0).1 sb hb
      unfold DM.tryCatchE
      rw [hb]
      exact hgood
    | error e =>
      have hInv : ProgInv sb := (hbody _ hP0).2 e sb hb
      have hfail : GoodTrace { sb with
          prog := failedSnap e sb.prog,
          callbacks := sb.callbacks ++ [failedSnap e sb.prog] } := by
        refine goodTrace_append_final sb (failedSnap e sb.prog) hInv (le_of_eq rfl) ?_ ?_
        · intro h100
          exfalso
          have h95 : sb.prog.progress ≤ 95 := hInv.2.2.2.2
          have h100b : sb.prog.progress = 100 := h100
          rw [h100b] at h95
          norm_num at h95
        · intro hemp
          have h0 : (failedSnap e sb.prog).progress = 0 := hInv.2.2.1 hemp
          rw [h0]
          norm_num
      unfold DM.tryCatchE
      rw [hb]
      cases hce : env.cleanupErr with
      | none =>
        simp only [cleanupPartialDownload, hce, DM.fallible_none, DM.tryCatchE,
          DM.run_bind, DM.modifyProg_apply, DM.emit_apply, DM.recordOp_apply,
          DM.throwE_apply]
        exact hfail
      | some msg =>
        simp only [cleanupPartialDownload, hce, DM.fallible_some, DM.tryCatchE,
          DM.run_bind, DM.modifyProg_apply, DM.emit_apply, DM.recordOp_apply,
          DM.throwE_apply]
        exact hfail

/-- Witness for C3 at the concrete successful run of miniMushaf. -/
theorem downloadMushaf_monotone_witness :
    GoodTrace (downloadMushaf envOk miniMushaf sampleState).2 :=
  downloadMushaf_monotone envOk miniMushaf sampleState rfl
    (by simp [envOk, List.chain'_cons]; norm_num)
    (by intro f hf; simp [envOk] at hf; rcases hf with rfl | rfl <;> norm_num)
    (by simp [envOk])
    (by intro f hf; simp [envOk] at hf; rw [hf]; norm_num)
    (by simp [envOk, List.chain'_cons]; norm_num)
    (by intro t ht; simp [envOk] at ht; rcases ht with rfl | rfl <;> norm_num)
